import Mathlib

/-!
Shallow embedding of the Hospital Registry Service
(`src/backend/app/routers/hospitals.py`).

The service keeps an ordered in-memory collection of hospital records
(`HOSPITALS_DB`) and exposes three operations:
`create_hospital`, `get_hospitals` (list with pagination), and
`get_hospital` (get by id).  Python integers are modelled as `Int`,
Python list slicing as `pySlice`, and `HTTPException` failures as the
`error` branch of `Except HTTPError`.
-/

/-- A stored hospital record (dict with keys id, name, location,
total_beds, icu_beds). -/
structure Hospital where
  id : Int
  name : String
  location : String
  total_beds : Int
  icu_beds : Int
deriving Repr, DecidableEq

/-- The request body of `POST /hospitals` (schema `HospitalCreate`):
the caller supplies no id. -/
structure HospitalCreate where
  name : String
  location : String
  total_beds : Int
  icu_beds : Int
deriving Repr, DecidableEq

/-- An `HTTPException`: status code plus detail message. -/
structure HTTPError where
  status_code : Nat
  detail : String
deriving Repr, DecidableEq

/-- The seeded mock database: two fixed records with ids 1 and 2. -/
def HOSPITALS_DB : List Hospital :=
  [ { id := 1, name := "City General Hospital", location := "Delhi",
      total_beds := 250, icu_beds := 50 },
    { id := 2, name := "Metro Care Hospital", location := "Mumbai",
      total_beds := 180, icu_beds := 30 } ]

/-- `create_hospital`: validates `icu_beds <= total_beds`, assigns
`id = len(HOSPITALS_DB) + 1`, appends, and returns the created record.
The state (the collection) is passed explicitly; on success the new
collection is returned with the record. -/
def create_hospital (hospital : HospitalCreate) (db : List Hospital) :
    Except HTTPError (Hospital × List Hospital) :=
  if hospital.icu_beds > hospital.total_beds then
    .error { status_code := 400, detail := "ICU beds cannot exceed total beds" }
  else
    let new_hospital : Hospital :=
      { id := (db.length : Int) + 1, name := hospital.name,
        location := hospital.location, total_beds := hospital.total_beds,
        icu_beds := hospital.icu_beds }
    .ok (new_hospital, db ++ [new_hospital])

/-- Python list slicing `l[start : stop]` (step 1): negative indices
count from the end, then both bounds are clamped to `[0, len(l)]`. -/
def pySlice {α : Type} (l : List α) (start stop : Int) : List α :=
  let n : Int := l.length
  let s : Int := if start < 0 then max (n + start) 0 else min start n
  let e : Int := if stop < 0 then max (n + stop) 0 else min stop n
  (l.drop s.toNat).take (e - s).toNat

/-- `get_hospitals`: returns `HOSPITALS_DB[skip : skip + limit]`.
Read-only, so it takes the collection and returns the slice. -/
def get_hospitals (db : List Hospital) (skip limit : Int) : List Hospital :=
  pySlice db skip (skip + limit)

/-- The f-string `f"Hospital with ID {hospital_id} not found"`. -/
def notFoundMsg (hospital_id : Int) : String :=
  "Hospital with ID " ++ toString hospital_id ++ " not found"

/-- `get_hospital`: linear scan in insertion order for the first record
whose id equals the input; 404 with the id in the message otherwise. -/
def get_hospital (db : List Hospital) (hospital_id : Int) :
    Except HTTPError Hospital :=
  match db with
  | [] => .error { status_code := 404, detail := notFoundMsg hospital_id }
  | h :: rest =>
    if h.id = hospital_id then .ok h else get_hospital rest hospital_id

/-- One API operation, for reasoning about sequences of calls. -/
inductive Op where
  | create (input : HospitalCreate)
  | list (skip limit : Int)
  | getById (hospital_id : Int)

/-- Effect of one operation on the shared collection: only a successful
`create` mutates it (append); a failed `create`, `list` and `getById`
leave it unchanged. -/
def step (db : List Hospital) : Op → List Hospital
  | .create input =>
    match create_hospital input db with
    | .ok (_, db') => db'
    | .error _ => db
  | .list _ _ => db
  | .getById _ => db

/-- The collection after running a sequence of operations from `db`. -/
def run (db : List Hospital) (ops : List Op) : List Hospital :=
  ops.foldl step db

/-! ## Claim theorems -/

/-- C1: for every creation input with `icu_beds <= total_beds`,
`create_hospital` succeeds, returning a record whose id is the pre-call
collection length plus one and whose other fields copy the input; the
record is appended at the end and the length grows by exactly one. -/
theorem create_valid_appends (input : HospitalCreate) (db : List Hospital)
    (h : input.icu_beds ≤ input.total_beds) :
    ∃ r : Hospital,
      create_hospital input db = .ok (r, db ++ [r]) ∧
      r.id = (db.length : Int) + 1 ∧
      r.name = input.name ∧
      r.location = input.location ∧
      r.total_beds = input.total_beds ∧
      r.icu_beds = input.icu_beds ∧
      (db ++ [r]).length = db.length + 1 := by
  refine ⟨{ id := (db.length : Int) + 1, name := input.name,
            location := input.location, total_beds := input.total_beds,
            icu_beds := input.icu_beds },
          ?_, rfl, rfl, rfl, rfl, rfl, by simp⟩
  simp only [create_hospital, if_neg (not_lt.mpr h)]

/-- C1 witness: scenario 2 of the spec, `create` of Sunrise Clinic on the
seeded collection. -/
theorem create_valid_appends_witness :
    (20 : Int) ≤ 100 ∧
    ∃ r : Hospital,
      create_hospital
          { name := "Sunrise Clinic", location := "Pune",
            total_beds := 100, icu_beds := 20 } HOSPITALS_DB
        = .ok (r, HOSPITALS_DB ++ [r]) ∧
      r.id = (HOSPITALS_DB.length : Int) + 1 ∧
      r.name = "Sunrise Clinic" ∧
      r.location = "Pune" ∧
      r.total_beds = (100 : Int) ∧
      r.icu_beds = (20 : Int) ∧
      (HOSPITALS_DB ++ [r]).length = HOSPITALS_DB.length + 1 :=
  ⟨by norm_num,
   create_valid_appends
     { name := "Sunrise Clinic", location := "Pune",
       total_beds := 100, icu_beds := 20 } HOSPITALS_DB (by norm_num)⟩

/-- C2: for every creation input with `icu_beds > total_beds`,
`create_hospital` fails with a 400 error whose message is
"ICU beds cannot exceed total beds", and the collection is unchanged. -/
theorem create_invalid_rejected (input : HospitalCreate) (db : List Hospital)
    (h : input.total_beds < input.icu_beds) :
    create_hospital input db
      = .error { status_code := 400,
                 detail := "ICU beds cannot exceed total beds" } ∧
    step db (Op.create input) = db := by
  constructor
  · simp only [create_hospital, if_pos h]
  · simp only [step, create_hospital, if_pos h]

/-- C2 witness: scenario 3 of the spec, `create` with 50 ICU beds but
only 10 total beds on the seeded collection. -/
theorem create_invalid_rejected_witness :
    (10 : Int) < 50 ∧
    (create_hospital
        { name := "Bad Hospital", location := "X",
          total_beds := 10, icu_beds := 50 } HOSPITALS_DB
      = .error { status_code := 400,
                 detail := "ICU beds cannot exceed total beds" } ∧
     step HOSPITALS_DB
         (Op.create { name := "Bad Hospital", location := "X",
                      total_beds := 10, icu_beds := 50 })
       = HOSPITALS_DB) :=
  ⟨by norm_num,
   create_invalid_rejected
     { name := "Bad Hospital", location := "X",
       total_beds := 10, icu_beds := 50 } HOSPITALS_DB (by norm_num)⟩

/-- C10: `create_hospital` itself imposes no non-negativity check on bed
counts: any input with `icu_beds <= total_beds` is accepted, and in
particular an input with `total_beds = -5` and `icu_beds = -10` is
appended with its negative bed counts intact. -/
theorem create_no_nonnegativity_check (input : HospitalCreate)
    (db : List Hospital) (h : input.icu_beds ≤ input.total_beds) :
    (∃ r : Hospital, create_hospital input db = .ok (r, db ++ [r])) ∧
    (∃ r : Hospital,
      create_hospital
          { name := input.name, location := input.location,
            total_beds := -5, icu_beds := -10 } db
        = .ok (r, db ++ [r]) ∧
      r.total_beds = (-5 : Int) ∧ r.icu_beds = (-10 : Int)) := by
  constructor
  · exact ⟨{ id := (db.length : Int) + 1, name := input.name,
             location := input.location, total_beds := input.total_beds,
             icu_beds := input.icu_beds },
           by simp only [create_hospital, if_neg (not_lt.mpr h)]⟩
  · refine ⟨{ id := (db.length : Int) + 1, name := input.name,
              location := input.location, total_beds := -5,
              icu_beds := -10 },
            ?_, rfl, rfl⟩
    simp only [create_hospital]
    norm_num

/-- C10 witness: creating a hospital with `total_beds = -5`,
`icu_beds = -10` on the seeded collection succeeds. -/
theorem create_no_nonnegativity_check_witness :
    (-10 : Int) ≤ -5 ∧
    ((∃ r : Hospital,
       create_hospital
           { name := "Bad", location := "X",
             total_beds := -5, icu_beds := -10 } HOSPITALS_DB
         = .ok (r, HOSPITALS_DB ++ [r])) ∧
     (∃ r : Hospital,
       create_hospital
           { name := "Bad", location := "X",
             total_beds := -5, icu_beds := -10 } HOSPITALS_DB
         = .ok (r, HOSPITALS_DB ++ [r]) ∧
       r.total_beds = (-5 : Int) ∧ r.icu_beds = (-10 : Int))) :=
  ⟨by norm_num,
   create_no_nonnegativity_check
     { name := "Bad", location := "X", total_beds := -5, icu_beds := -10 }
     HOSPITALS_DB (by norm_num)⟩

/-- Helper for C4: when some record has the requested id, the scan
returns the first such record: `db` splits as `pre ++ r :: post` with no
match in `pre`. -/
theorem get_hospital_found (db : List Hospital) (i : Int)
    (h : ∃ x ∈ db, x.id = i) :
    ∃ r : Hospital, ∃ pre post : List Hospital,
      get_hospital db i = .ok r ∧ r.id = i ∧
      db = pre ++ r :: post ∧ ∀ x ∈ pre, x.id ≠ i := by
  induction db with
  | nil => simp at h
  | cons a rest ih =>
    by_cases ha : a.id = i
    · exact ⟨a, [], rest, by simp [get_hospital, ha], ha, rfl, by simp⟩
    · obtain ⟨x, hx, hxi⟩ := h
      rcases List.mem_cons.mp hx with rfl | hx'
      · exact absurd hxi ha
      · obtain ⟨r, pre, post, h1, h2, h3, h4⟩ := ih ⟨x, hx', hxi⟩
        refine ⟨r, a :: pre, post, ?_, h2, by simp [h3], ?_⟩
        · simpa only [get_hospital, if_neg ha] using h1
        · intro y hy
          rcases List.mem_cons.mp hy with rfl | hy'
          · exact ha
          · exact h4 y hy'

/-- C4: for every id present in the collection, `get_hospital` succeeds
and returns the first record in insertion order whose id matches, which
under pairwise id-uniqueness is the unique record with that id. -/
theorem getById_present (db : List Hospital) (i : Int)
    (h : ∃ x ∈ db, x.id = i) :
    ∃ r : Hospital, get_hospital db i = .ok r ∧ r.id = i ∧
      (∃ pre post : List Hospital,
        db = pre ++ r :: post ∧ ∀ x ∈ pre, x.id ≠ i) ∧
      (db.Pairwise (fun a b => a.id ≠ b.id) →
        ∀ x ∈ db, x.id = i → x = r) := by
  obtain ⟨r, pre, post, h1, h2, h3, h4⟩ := get_hospital_found db i h
  refine ⟨r, h1, h2, ⟨pre, post, h3, h4⟩, ?_⟩
  intro hpw x hx hxi
  subst h3
  rw [List.pairwise_append] at hpw
  obtain ⟨-, hpw2, -⟩ := hpw
  rw [List.pairwise_cons] at hpw2
  obtain ⟨hr, -⟩ := hpw2
  rcases List.mem_append.mp hx with hx1 | hx2
  · exact absurd hxi (h4 x hx1)
  · rcases List.mem_cons.mp hx2 with rfl | hx3
    · rfl
    · exact absurd (h2.trans hxi.symm) (hr x hx3)

/-- C4 witness: scenario 4 of the spec, `getById(1)` on the seeded
collection returns the City General Hospital record. -/
theorem getById_present_witness :
    (∃ x ∈ HOSPITALS_DB, x.id = (1 : Int)) ∧
    ∃ r : Hospital, get_hospital HOSPITALS_DB 1 = .ok r ∧ r.id = 1 ∧
      (∃ pre post : List Hospital,
        HOSPITALS_DB = pre ++ r :: post ∧ ∀ x ∈ pre, x.id ≠ 1) ∧
      (HOSPITALS_DB.Pairwise (fun a b => a.id ≠ b.id) →
        ∀ x ∈ HOSPITALS_DB, x.id = 1 → x = r) :=
  ⟨by decide, getById_present HOSPITALS_DB 1 (by decide)⟩

/-- C5: for every id absent from the collection, `get_hospital` fails
with a 404 error whose message is the id surrounded by
"Hospital with ID " and " not found", and the collection is unchanged. -/
theorem getById_absent (db : List Hospital) (i : Int)
    (h : ∀ x ∈ db, x.id ≠ i) :
    get_hospital db i
      = .error { status_code := 404, detail := notFoundMsg i } ∧
    notFoundMsg i = "Hospital with ID " ++ toString i ++ " not found" ∧
    step db (Op.getById i) = db := by
  refine ⟨?_, rfl, rfl⟩
  induction db with
  | nil => rfl
  | cons a rest ih =>
    have ha : a.id ≠ i := h a (List.mem_cons_self a rest)
    simp only [get_hospital, if_neg ha]
    exact ih (fun x hx => h x (List.mem_cons_of_mem a hx))

/-- C5 witness: scenario 5 of the spec, `getById(999)` on the seeded
collection fails with "Hospital with ID 999 not found". -/
theorem getById_absent_witness :
    (∀ x ∈ HOSPITALS_DB, x.id ≠ (999 : Int)) ∧
    (get_hospital HOSPITALS_DB 999
       = .error { status_code := 404, detail := notFoundMsg 999 } ∧
     notFoundMsg 999 = "Hospital with ID " ++ toString (999 : Int) ++ " not found" ∧
     step HOSPITALS_DB (Op.getById 999) = HOSPITALS_DB) :=
  ⟨by decide, getById_absent HOSPITALS_DB 999 (by decide)⟩

/-- Helper for C3: on non-negative bounds, the Python slice
`l[a : a + b]` is drop `a` then take `b`. -/
theorem pySlice_nonneg {α : Type} (l : List α) (a b : Int)
    (ha : 0 ≤ a) (hb : 0 ≤ b) :
    pySlice l a (a + b) = (l.drop a.toNat).take b.toNat := by
  simp only [pySlice]
  rw [if_neg (not_lt.mpr ha), if_neg (not_lt.mpr (by omega : (0:Int) ≤ a + b))]
  rcases le_or_lt (l.length : Int) a with hn | hn
  · rw [min_eq_right hn]
    rw [List.drop_eq_nil_of_le (by omega : l.length ≤ ((l.length : Int)).toNat),
        List.drop_eq_nil_of_le (by omega : l.length ≤ a.toNat)]
    simp
  · rw [min_eq_left (le_of_lt hn), List.take_eq_take, List.length_drop]
    omega

/-- C3: for non-negative `skip` and `limit`, `get_hospitals` returns the
contiguous slice `[skip : skip + limit]` (drop `skip`, take `limit`) of
the collection in insertion order, with at most `limit` records; a
`skip` past the end gives the empty sequence; on the seeded collection
`list(0, 100)` returns the two seed records in order and `list(5, 10)`
returns the empty sequence. -/
theorem list_returns_slice (db : List Hospital) (skip limit : Int)
    (hs : 0 ≤ skip) (hl : 0 ≤ limit) :
    get_hospitals db skip limit = (db.drop skip.toNat).take limit.toNat ∧
    (get_hospitals db skip limit).length ≤ limit.toNat ∧
    ((db.length : Int) ≤ skip → get_hospitals db skip limit = []) ∧
    get_hospitals HOSPITALS_DB 0 100 = HOSPITALS_DB ∧
    get_hospitals HOSPITALS_DB 5 10 = [] := by
  have e : get_hospitals db skip limit = (db.drop skip.toNat).take limit.toNat :=
    pySlice_nonneg db skip limit hs hl
  refine ⟨e, ?_, ?_, by decide, by decide⟩
  · rw [e]
    exact List.length_take_le _ _
  · intro hgt
    rw [e, List.drop_eq_nil_of_le (by omega : db.length ≤ skip.toNat),
        List.take_nil]

/-- C3 witness: scenario 6 of the spec, `list(5, 10)` on the seeded
2-record collection. -/
theorem list_returns_slice_witness :
    (0:Int) ≤ 5 ∧ (0:Int) ≤ 10 ∧
    (get_hospitals HOSPITALS_DB 5 10
       = (HOSPITALS_DB.drop (5:Int).toNat).take (10:Int).toNat ∧
     (get_hospitals HOSPITALS_DB 5 10).length ≤ (10:Int).toNat ∧
     ((HOSPITALS_DB.length : Int) ≤ 5 → get_hospitals HOSPITALS_DB 5 10 = []) ∧
     get_hospitals HOSPITALS_DB 0 100 = HOSPITALS_DB ∧
     get_hospitals HOSPITALS_DB 5 10 = []) :=
  ⟨by norm_num, by norm_num,
   list_returns_slice HOSPITALS_DB 5 10 (by norm_num) (by norm_num)⟩

/-- C9 counterexample: the claim says `list(-1, limit)` with
`limit >= n` returns exactly the last record; but on the seeded
collection (`n = 2 >= 1`) with `limit = 2 >= n`, the slice
`[-1 : -1 + 2]` normalizes to `[1 : 1]` and the result is the empty
sequence, while the last record of the collection exists. -/
theorem negative_skip_claim_counterexample :
    HOSPITALS_DB.length = 2 ∧
    get_hospitals HOSPITALS_DB (-1) 2 = [] ∧
    HOSPITALS_DB.drop (HOSPITALS_DB.length - 1) ≠ [] := by
  exact ⟨rfl, rfl, by decide⟩

/-- C9 amended: negative pagination parameters follow Python slice
semantics: for a collection of length `n >= 1` and `limit > n` (the
original claim's `limit >= n` is off by one: at `limit = n` the result
is empty), `list(-1, limit)` returns exactly the last record, and
`list(0, -1)` returns all records except the last. -/
theorem negative_params_python_slices (db : List Hospital) (limit : Int)
    (h1 : 1 ≤ db.length) (h2 : (db.length : Int) < limit) :
    get_hospitals db (-1) limit = [db.get ⟨db.length - 1, by omega⟩] ∧
    get_hospitals db 0 (-1) = db.dropLast := by
  have hlast : db.drop (db.length - 1) = [db.get ⟨db.length - 1, by omega⟩] := by
    rw [List.drop_eq_getElem_cons (by omega : db.length - 1 < db.length)]
    have he : db.length - 1 + 1 = db.length := by omega
    rw [he, List.drop_length]
    simp
  constructor
  · show pySlice db (-1) (-1 + limit) = _
    simp only [pySlice]
    rw [if_pos (by norm_num : (-1:Int) < 0), if_neg (by omega : ¬ (-1 + limit < 0))]
    have hmax : max ((db.length : Int) + -1) 0 = (db.length : Int) - 1 := by omega
    have hmin : min (-1 + limit) (db.length : Int) = (db.length : Int) := by omega
    rw [hmax, hmin]
    have h3 : ((db.length : Int) - 1).toNat = db.length - 1 := by omega
    have h4 : ((db.length : Int) - ((db.length : Int) - 1)).toNat = 1 := by omega
    rw [h3, h4, hlast]
    rfl
  · show pySlice db 0 (0 + -1) = _
    simp only [pySlice]
    rw [if_neg (by norm_num : ¬ (0:Int) < 0), if_pos (by norm_num : (0:Int) + -1 < 0)]
    have hmin : min (0:Int) (db.length : Int) = 0 := by omega
    have hmax : max ((db.length : Int) + (0 + -1)) 0 = (db.length : Int) - 1 := by
      omega
    rw [hmin, hmax]
    have h5 : ((db.length : Int) - 1 - 0).toNat = db.length - 1 := by omega
    have h6 : ((0:Int)).toNat = 0 := rfl
    rw [h5, h6, List.drop_zero, List.dropLast_eq_take]

/-- C9 witness: on the seeded collection (length 2) with `limit = 3 > 2`,
`list(-1, 3)` returns exactly the last seed record and `list(0, -1)`
returns all records except the last. -/
theorem negative_params_python_slices_witness :
    1 ≤ HOSPITALS_DB.length ∧ (HOSPITALS_DB.length : Int) < 3 ∧
    (get_hospitals HOSPITALS_DB (-1) 3
       = [HOSPITALS_DB.get ⟨HOSPITALS_DB.length - 1, by decide⟩] ∧
     get_hospitals HOSPITALS_DB 0 (-1) = HOSPITALS_DB.dropLast) :=
  ⟨by decide, by decide,
   negative_params_python_slices HOSPITALS_DB 3 (by decide) (by decide)⟩

/-- The ids of the collection, in insertion order. -/
def ids (db : List Hospital) : List Int := db.map (fun h => h.id)

/-- Helper for C6: one step preserves "the id at position `k` is
`k + 1`" (stated as an equality of id sequences). Only a successful
`create` changes the collection, and it appends id `length + 1`. -/
theorem ids_step (db : List Hospital)
    (h : ids db = (List.range db.length).map (fun k => ((k : Nat) : Int) + 1))
    (op : Op) :
    ids (step db op)
      = (List.range (step db op).length).map
          (fun k => ((k : Nat) : Int) + 1) := by
  cases op with
  | create input =>
    by_cases hc : input.icu_beds > input.total_beds
    · simpa only [step, create_hospital, if_pos hc] using h
    · simp only [step, create_hospital, if_neg hc]
      simp only [ids, List.map_append, List.length_append, List.length_cons,
        List.length_nil, List.range_succ, List.map_cons, List.map_nil]
      rw [← ids, h]
  | list skip limit => exact h
  | getById i => exact h

/-- Helper for C6: the id-sequence invariant holds after any run from
the seeded collection. -/
theorem ids_run (ops : List Op) :
    ids (run HOSPITALS_DB ops)
      = (List.range (run HOSPITALS_DB ops).length).map
          (fun k => ((k : Nat) : Int) + 1) := by
  suffices h : ∀ db : List Hospital,
      ids db = (List.range db.length).map (fun k => ((k : Nat) : Int) + 1) →
      ids (ops.foldl step db)
        = (List.range (ops.foldl step db).length).map
            (fun k => ((k : Nat) : Int) + 1) by
    exact h HOSPITALS_DB (by decide)
  induction ops with
  | nil => exact fun db hdb => hdb
  | cons op rest ih => exact fun db hdb => ih (step db op) (ids_step db hdb op)

/-- C6: starting from the seeded collection, after any sequence of
operations the record at position `k` has id `k + 1` (the collection
length at its creation plus one); hence every id is positive and the
ids are strictly increasing with insertion order, so all distinct. -/
theorem ids_invariant (ops : List Op) :
    (∀ i : Fin (run HOSPITALS_DB ops).length,
      ((run HOSPITALS_DB ops).get i).id = ((i : Nat) : Int) + 1) ∧
    (∀ x ∈ run HOSPITALS_DB ops, 0 < x.id) ∧
    (ids (run HOSPITALS_DB ops)).Pairwise (fun a b => a < b) := by
  have key := ids_run ops
  refine ⟨?_, ?_, ?_⟩
  · intro i
    obtain ⟨i, hi⟩ := i
    have h1 : (ids (run HOSPITALS_DB ops))[i]?
        = some (((i : Nat) : Int) + 1) := by
      rw [key]
      simp [List.getElem?_map, List.getElem?_range, hi]
    rw [ids, List.getElem?_map, List.getElem?_eq_getElem hi] at h1
    simpa using h1
  · intro x hmem
    have hx : x.id ∈ ids (run HOSPITALS_DB ops) := List.mem_map_of_mem _ hmem
    rw [key] at hx
    obtain ⟨k, -, hk⟩ := List.mem_map.mp hx
    omega
  · rw [key]
    exact List.Pairwise.map _ (fun a b hab => by omega) (List.pairwise_lt_range _)

/-- Helper for C7: one step preserves `icu_beds <= total_beds` for all
records: reads change nothing, and `create` either rejects the input or
appends a record that passed the check. -/
theorem beds_step (db : List Hospital)
    (h : ∀ x ∈ db, x.icu_beds ≤ x.total_beds) (op : Op) :
    ∀ x ∈ step db op, x.icu_beds ≤ x.total_beds := by
  cases op with
  | create input =>
    by_cases hc : input.icu_beds > input.total_beds
    · simpa only [step, create_hospital, if_pos hc] using h
    · simp only [step, create_hospital, if_neg hc]
      intro x hx
      rcases List.mem_append.mp hx with hx1 | hx2
      · exact h x hx1
      · rw [List.mem_singleton.mp hx2]
        exact not_lt.mp hc
  | list skip limit => exact h
  | getById i => exact h

/-- C7: starting from the seeded collection, after any sequence of
operations every record satisfies `icu_beds <= total_beds`: both seed
records satisfy it and `create` rejects any violating input. -/
theorem beds_invariant (ops : List Op) (x : Hospital)
    (hmem : x ∈ run HOSPITALS_DB ops) : x.icu_beds ≤ x.total_beds := by
  have h : ∀ (l : List Op) (db : List Hospital),
      (∀ y ∈ db, y.icu_beds ≤ y.total_beds) →
      ∀ y ∈ l.foldl step db, y.icu_beds ≤ y.total_beds := by
    intro l
    induction l with
    | nil => exact fun db hdb => hdb
    | cons op rest ih => exact fun db hdb => ih (step db op) (beds_step db hdb op)
  exact h ops HOSPITALS_DB (by decide) x hmem

/-- C7 witness: the first seed record of the untouched seeded collection
has 50 ICU beds out of 250 total. -/
theorem beds_invariant_witness :
    ({ id := 1, name := "City General Hospital", location := "Delhi",
       total_beds := 250, icu_beds := 50 } : Hospital) ∈ run HOSPITALS_DB [] ∧
    ({ id := 1, name := "City General Hospital", location := "Delhi",
       total_beds := 250, icu_beds := 50 } : Hospital).icu_beds
      ≤ ({ id := 1, name := "City General Hospital", location := "Delhi",
           total_beds := 250, icu_beds := 50 } : Hospital).total_beds :=
  ⟨by decide,
   beds_invariant []
     { id := 1, name := "City General Hospital", location := "Delhi",
       total_beds := 250, icu_beds := 50 } (by decide)⟩

/-- C8: `list` and `getById` leave the collection unchanged (read-only),
so repeating either call with the same arguments and no intervening
`create` returns an identical result. -/
theorem reads_leave_state_unchanged (db : List Hospital)
    (skip limit i : Int) :
    step db (Op.list skip limit) = db ∧
    step db (Op.getById i) = db ∧
    get_hospitals (step db (Op.list skip limit)) skip limit
      = get_hospitals db skip limit ∧
    get_hospital (step db (Op.getById i)) i = get_hospital db i :=
  ⟨rfl, rfl, rfl, rfl⟩
